import Mathlib

/-!
Verification development for the next-hop / extensible-record fragment of the
traffic-server source tree.  The definitions below are shallow embeddings of:

* `LockPool` (src/iocore/utils/SharedAccess.h, src/iocore/utils/PartitionedMap.h):
  a fixed vector of mutexes selected by `key_hash mod size`.  Mutexes carry no
  data, so a mutex is identified by its index in the vector; fallible C++
  operations (mod 0, out-of-range `operator[]`) are modelled as `Option`.
* `SESchema` (SharedExtendible::Schema, src/unnamed/part_002): the runtime
  schema of an extensible record type, with its `reset` gate on the live
  instance counter, and the packed-bit accessors `readBit` / `writeBit`.
* `PBStatic` (PropertyBlock, src/iocore/utils/PropertyBlock.h): the static
  per-type declaration state (`s_properties_total_size`, `s_bits_size`,
  `s_instance_count`, the schema vector of construct/destruct blocks), plus
  `PropBlockDeclare`, `PropBlockDeclareBit`, `resetSchema`, the packed-bit
  accessors `propGetBit` / `propPutBit` and the lifecycle entry points
  `propBlockInit` / `propBlockDestroy`.  Construct/destruct callbacks are
  type-erased in the source (`void(Derived_t *, void *)`); their only
  observable effect in the claims is on the static `alive` counter of the
  test property type, so a callback is embedded as a transformer `Int → Int`
  of that counter.
* `SharedMap` (src/unnamed/part_005): a partitioned map of shared handles with
  `find_or_alloc`.  A heap allocation (`new Value_t{}`) is embedded as drawing
  the next fresh handle from an allocation counter.
* `update_host_addr` (src/iocore/nexthop/NextHopDNS.h) over a directory state
  of host records (with their `addr_list` copy-swap field) and address records
  (with their `host_name` field).
* `print_request_headers` (src/plugins/xdebug/xdebug_headers.cc): the output
  accumulator (`std::stringstream`) is embedded as the list of appended text
  chunks, and the `TSIOBuffer` block drain loop of `print_headers` as a
  recursion over the list of buffer blocks.

Raw instance memory for the packed-bit region is embedded byte-addressed as a
function `Nat → Nat` (address to byte value), exactly mirroring the mask
arithmetic `1 << (offset % 8)` on the byte at `base + offset / 8`.
-/

/-! ### Association lists: the embedding of std::unordered_map / std::map -/

/-- Lookup in an association list (`map.find(key)` returning the mapped value
when present). -/
def lookupA {K V : Type} [DecidableEq K] : List (K × V) → K → Option V
  | [], _ => none
  | (k, v) :: rest, key => if k = key then some v else lookupA rest key

/-- Remove every binding of `key` (`map.erase(key)`; keys are unique in the
C++ maps, so this is ordinary erasure). -/
def eraseA {K V : Type} [DecidableEq K] : List (K × V) → K → List (K × V)
  | [], _ => []
  | (k, v) :: rest, key => if k = key then eraseA rest key else (k, v) :: eraseA rest key

/-- Insert-or-overwrite (`map[key] = value`). -/
def insertA {K V : Type} [DecidableEq K] (l : List (K × V)) (key : K) (v : V) : List (K × V) :=
  (key, v) :: eraseA l key

/-! ### LockPool (SharedAccess.h / PartitionedMap.h) -/

/-- `template <typename Mutex_t> struct LockPool { vector<Mutex_t> mutexes; }`.
A mutex holds no data, so the vector is a vector of units and a particular
mutex is designated by its index. -/
structure LockPool where
  mutexes : List Unit

/-- The constructor `LockPool(size_t num_locks) : mutexes(num_locks) {}`.
It performs no validation of `num_locks`. -/
def lockPoolNew (num_locks : Nat) : LockPool :=
  ⟨List.replicate num_locks ()⟩

/-- `size_t size() const { return mutexes.size(); }` -/
def LockPool.size (p : LockPool) : Nat :=
  p.mutexes.length

/-- `Index_t getIndex(size_t key_hash) const { return key_hash % size(); }`
with `using Index_t = uint8_t`: the result of the mod is truncated to 8 bits
by the return type.  `key_hash % 0` has no defined result (division-by-zero
domain), embedded as `none`. -/
def LockPool.getIndex (p : LockPool) (key_hash : Nat) : Option Nat :=
  if p.size = 0 then none else some ((key_hash % p.size) % 256)

/-- `Mutex_t &getMutex(Index_t index) { return mutexes[index]; }`: designates
the mutex at `index`; out-of-range vector indexing has no defined result. -/
def LockPool.getMutexByIndex (p : LockPool) (index : Nat) : Option Nat :=
  if index < p.size then some index else none

/-- `Mutex_t &getMutex(size_t key_hash) { return mutexes[key_hash % size()]; }`:
designates the mutex at `key_hash mod size`; for a pool of zero locks the mod
is a division-by-zero domain error, embedded as `none`. -/
def LockPool.getMutexByHash (p : LockPool) (key_hash : Nat) : Option Nat :=
  if p.size = 0 then none else some (key_hash % p.size)

/-- Modelled from the spec: "Error behavior: constructing with count = 0 is
invalid (division-by-zero domain); implementations must reject it."  This is
the constructor the specification describes, for comparison with the source
constructor `lockPoolNew`, which has no such validation. -/
def lockPoolNewChecked (num_locks : Nat) : Option LockPool :=
  if num_locks = 0 then none else some (lockPoolNew num_locks)

/-! ### Packed-bit region primitives

Shared byte/mask arithmetic of `SharedExtendible::readBit` / `writeBit`
(src/unnamed/part_002 lines 266-285) and `PropertyBlock::propGetBit` /
`propPutBit` (PropertyBlock.h lines 96-118): the bit at `offset` lives in the
byte at `base + offset / 8` under mask `1 << (offset % 8)`; clearing uses
`c &= ~mask`, whose 8-bit pattern is `255 ^^^ mask`. -/

/-- Read one packed bit: `(c & (1 << (offset % 8))) != 0` on the byte
`c = mem (base + offset / 8)`. -/
def bitRegionRead (base : Nat) (mem : Nat → Nat) (offset : Nat) : Bool :=
  decide ((mem (base + offset / 8) &&& (1 <<< (offset % 8))) ≠ 0)

/-- Write one packed bit: `c |= mask` when the value is true, `c &= ~mask`
when false, on the byte at `base + offset / 8`; all other bytes of the
instance memory are untouched. -/
def bitRegionWrite (base : Nat) (mem : Nat → Nat) (offset : Nat) (val : Bool) : Nat → Nat :=
  fun a =>
    if a = base + offset / 8 then
      if val then mem a ||| (1 <<< (offset % 8))
      else mem a &&& (255 ^^^ (1 <<< (offset % 8)))
    else mem a

/-! ### SharedExtendible::Schema (src/unnamed/part_002) -/

/-- `enum FieldAccessEnum { ATOMIC, BIT, CONST, COPYSWAP, NUM_ACCESS_TYPES }` -/
inductive FieldAccessEnum
  | ATOMIC
  | BIT
  | CONST
  | COPYSWAP
deriving DecidableEq

/-- `struct FieldSchema { FieldAccessEnum access; uint8_t offset;
Func_t *construct_fn; Func_t *destruct_fn; }`.  The type-erased
construct/destruct function pointers are embedded as optional transformers of
the observable side-effect counter (none of the claims exercises them for
SharedExtendible fields). -/
structure FieldSchema where
  access : FieldAccessEnum
  offset : Nat
  construct_fn : Option (Int → Int)
  destruct_fn : Option (Int → Int)

/-- `SharedExtendible::Schema`: field definitions keyed by name, per-size
allocation counters `mem_size_count`, the derived `mem_offsets`, the packed
`bit_count`, the computed `alloc_size` and the live `instance_count`. -/
structure SESchema where
  fields : List (String × FieldSchema)
  mem_size_count : List (Nat × Nat)
  mem_offsets : List (Nat × Nat)
  bit_count : Nat
  alloc_size : Nat
  instance_count : Nat

/-- `Schema::reset()` (src/unnamed/part_002 lines 200-213): refuse (returning
false, changing nothing) while `instance_count > 0`; otherwise clear
`mem_size_count`, `mem_offsets` and `fields`, zero `bit_count` and
`alloc_size`, and return true. -/
def SESchema.reset (s : SESchema) : Bool × SESchema :=
  if s.instance_count > 0 then (false, s)
  else
    (true,
      { s with
        mem_size_count := []
        mem_offsets := []
        fields := []
        bit_count := 0
        alloc_size := 0 })

/-- `schema.mem_offsets[0]`: `unordered_map::operator[]` yields the mapped
value, default-constructed (0) when absent. -/
def SESchema.memOffsetAt (s : SESchema) (i : Nat) : Nat :=
  (lookupA s.mem_offsets i).getD 0

/-- `SharedExtendible::readBit(BitFieldId)`: read the packed bit at
`mem_offsets[0] + field.offset / 8`, mask `1 << (field.offset % 8)`. -/
def readBit (s : SESchema) (mem : Nat → Nat) (field : Nat) : Bool :=
  bitRegionRead (s.memOffsetAt 0) mem field

/-- `SharedExtendible::writeBit(BitFieldId, bool)`: set or clear the packed
bit at the same byte/mask location. -/
def writeBit (s : SESchema) (mem : Nat → Nat) (field : Nat) (val : Bool) : Nat → Nat :=
  bitRegionWrite (s.memOffsetAt 0) mem field val

/-! ### PropertyBlock (src/iocore/utils/PropertyBlock.h) -/

/-- `status_bits::num_status_bits`: PropertyBlock reserves two status bits. -/
def num_status_bits : Nat := 2

/-- The status bit the source enum calls `initialized` (index 0). -/
def statusBitConstructed : Nat := 0

/-- The status bit the source enum calls `destroyed` (index 1). -/
def statusBitDestroyed : Nat := 1

/-- `struct Block { Offset_t m_offset; PropertyFunc_t *m_init;
PropertyFunc_t *m_destroy; }` with callbacks embedded as transformers of the
observable `alive` counter (`none` embeds a null function pointer). -/
structure PBBlock where
  m_offset : Nat
  m_init : Option (Int → Int)
  m_destroy : Option (Int → Int)

/-- The static per-type state of `PropertyBlock<Derived_t>`. -/
structure PBStatic where
  s_properties_total_size : Nat
  s_bits_size : Nat
  s_instance_count : Nat
  schema : List PBBlock

/-- The block-pushing loop of `PropBlockDeclare`: one `Block` per property
instance, at offsets `head, head + sizeof(Property_t), ...`. -/
def declareBlocks (head szProp : Nat) (count : Nat) (i d : Option (Int → Int)) : List PBBlock :=
  match count with
  | 0 => []
  | n + 1 => { m_offset := head, m_init := i, m_destroy := d } :: declareBlocks (head + szProp) szProp n i d

/-- `PropBlockDeclare<Property_t>(prop_count, init, destroy)` (PropertyBlock.h
lines 41-58): the returned offset is `sizeof(Derived_t) +
s_properties_total_size`, the running total advances by
`prop_count * sizeof(Property_t)`, and when either callback is non-null one
`Block` per instance is appended to the schema.  (The debug-only
`ink_assert(s_instance_count == 0)` is a no-op in release builds; all claimed
uses declare while no instance exists.) -/
def PropBlockDeclare (szDerived szProp : Nat) (prop_count : Nat) (i d : Option (Int → Int))
    (st : PBStatic) : Nat × PBStatic :=
  let offset := szDerived + st.s_properties_total_size
  let st1 := { st with s_properties_total_size := st.s_properties_total_size + prop_count * szProp }
  if i.isSome || d.isSome then
    (offset, { st1 with schema := st1.schema ++ declareBlocks offset szProp prop_count i d })
  else
    (offset, st1)

/-- The testProperty custom construct callback of
test_PropertyBlock.cc (its observable effect: `alive++`). -/
def testProperty_init : Int → Int :=
  fun alive => alive + 1

/-- The testProperty custom destroy callback (`alive--`). -/
def testProperty_destroy : Int → Int :=
  fun alive => alive - 1

/-- The single-argument `PropBlockDeclare<Property_t>(prop_count)` overload:
supplies the default placement-construct / destruct callbacks, which do not
touch the observable counter. -/
def PropBlockDeclareDefault (szDerived szProp : Nat) (prop_count : Nat) (st : PBStatic) :
    Nat × PBStatic :=
  PropBlockDeclare szDerived szProp prop_count (some (fun alive => alive)) (some (fun alive => alive)) st

/-- `PropBlockDeclareBit(bit_count)`: returns the next free bit index
`s_bits_size` and advances it by `bit_count`. -/
def PropBlockDeclareBit (bit_count : Nat) (st : PBStatic) : Nat × PBStatic :=
  (st.s_bits_size, { st with s_bits_size := st.s_bits_size + bit_count })

/-- `resetSchema()` (PropertyBlock.h lines 148-159): refuse while instances
exist; otherwise zero `s_properties_total_size`, reset `s_bits_size` to
`num_status_bits` and clear the schema vector. -/
def resetSchema (st : PBStatic) : Bool × PBStatic :=
  if st.s_instance_count > 0 then (false, st)
  else
    (true,
      { st with
        s_properties_total_size := 0
        s_bits_size := num_status_bits
        schema := [] })

/-- `propGetBit(offset)`: the bit region starts at byte
`sizeof(Derived_t) + s_properties_total_size` of the instance. -/
def propGetBit (szDerived : Nat) (st : PBStatic) (mem : Nat → Nat) (offset : Nat) : Bool :=
  bitRegionRead (szDerived + st.s_properties_total_size) mem offset

/-- `propPutBit(offset, val)` on the same bit region. -/
def propPutBit (szDerived : Nat) (st : PBStatic) (mem : Nat → Nat) (offset : Nat) (val : Bool) :
    Nat → Nat :=
  bitRegionWrite (szDerived + st.s_properties_total_size) mem offset val

/-- The callback step of the `propBlockInit` loop: invoke `block.m_init` when
non-null. -/
def runInitBlock (alive : Int) (b : PBBlock) : Int :=
  match b.m_init with
  | some f => f alive
  | none => alive

/-- The callback step of the `propBlockDestroy` loop. -/
def runDestroyBlock (alive : Int) (b : PBBlock) : Int :=
  match b.m_destroy with
  | some f => f alive
  | none => alive

/-- `propBlockInit()` (PropertyBlock.h lines 162-175): if the status bit the
source calls `initialized` is already set, return without invoking anything;
otherwise set it and invoke every non-null `m_init` of the schema in order. -/
def propBlockInit (szDerived : Nat) (st : PBStatic) (mem : Nat → Nat) (alive : Int) :
    (Nat → Nat) × Int :=
  if propGetBit szDerived st mem statusBitConstructed then (mem, alive)
  else
    (propPutBit szDerived st mem statusBitConstructed true,
      st.schema.foldl runInitBlock alive)

/-- `propBlockDestroy()` (PropertyBlock.h lines 177-190): guarded by the
`destroyed` status bit, invoking every non-null `m_destroy` at most once. -/
def propBlockDestroy (szDerived : Nat) (st : PBStatic) (mem : Nat → Nat) (alive : Int) :
    (Nat → Nat) × Int :=
  if propGetBit szDerived st mem statusBitDestroyed then (mem, alive)
  else
    (propPutBit szDerived st mem statusBitDestroyed true,
      st.schema.foldl runDestroyBlock alive)

/-- `new Derived()`: `operator new` zeroes the whole allocation, the
`PropertyBlock` constructor increments `s_instance_count`, and the `Derived`
constructor calls `propBlockInit()` (as the test type does). -/
def pbNewDerived (szDerived : Nat) (st : PBStatic) (alive : Int) :
    PBStatic × (Nat → Nat) × Int :=
  let st1 := { st with s_instance_count := st.s_instance_count + 1 }
  let r := propBlockInit szDerived st1 (fun _ => 0) alive
  (st1, r.1, r.2)

/-- `delete ptr`: the `~PropertyBlock` destructor decrements
`s_instance_count` and then calls `propBlockDestroy()`. -/
def pbDeleteDerived (szDerived : Nat) (st : PBStatic) (mem : Nat → Nat) (alive : Int) :
    PBStatic × (Nat → Nat) × Int :=
  let st1 := { st with s_instance_count := st.s_instance_count - 1 }
  let r := propBlockDestroy szDerived st1 mem alive
  (st1, r.1, r.2)

/-! ### SharedMap (src/unnamed/part_005) -/

/-- `SharedMap<Key_t, Value_t>`: all values are shared handles to heap
records.  A handle is identified by its heap address, embedded as a `Nat`
drawn from the allocation counter `nextHandle` (fresh addresses are strictly
increasing). -/
structure SharedMap (K : Type) where
  entries : List (K × Nat)
  nextHandle : Nat

/-- `find_or_alloc(key, val_ptr)` (src/unnamed/part_005 lines 137-150): under
one partition lock, return true with the existing handle when the key is
present; otherwise allocate a fresh record (`new Value_t{}`), insert its
handle and return false. -/
def find_or_alloc {K : Type} [DecidableEq K] (m : SharedMap K) (key : K) :
    Bool × Nat × SharedMap K :=
  match lookupA m.entries key with
  | some h => (true, h, m)
  | none =>
    (false, m.nextHandle,
      { entries := insertA m.entries key m.nextHandle, nextHandle := m.nextHandle + 1 })

/-- `pop(key)` (PartitionedMap): remove the binding of `key` (the transient
`map[key]` default-insert before `erase` nets out to plain removal). -/
def smPop {K : Type} [DecidableEq K] (m : SharedMap K) (key : K) : SharedMap K :=
  { entries := eraseA m.entries key, nextHandle := m.nextHandle }

/-- The map operations interleaved between two `find_or_alloc(k)` calls in
claim C2: further find-or-allocates on any key, and pops. -/
inductive MapOp (K : Type)
  | foa (key : K)
  | pop (key : K)
deriving DecidableEq

/-- Apply one interleaved operation to the map state. -/
def applyOp {K : Type} [DecidableEq K] (m : SharedMap K) : MapOp K → SharedMap K
  | MapOp.foa k => (find_or_alloc m k).2.2
  | MapOp.pop k => smPop m k

/-! ### Host/address directory and update_host_addr (NextHopDNS.h) -/

/-- The directory state `update_host_addr` operates on: the HostRecord table
projected to the `addr_list` copy-swap field of each host, and the AddrRecord
table projected to the `host_name` field of each address record.  Addresses
are identified by `Nat` keys. -/
structure DirState where
  hosts : List (String × List Nat)
  addrs : List (Nat × String)

/-- The body of the per-address loop of `update_host_addr` (NextHopDNS.h
lines 31-46): if an AddrRecord exists and its `host_name` already equals this
host, leave it untouched; if it exists under a different host, destroy it,
then create it afresh and init its `host_name`; if absent, create it and init
its `host_name`. -/
def reconcileAddrStep (host_name : String) (t : List (Nat × String)) (addr : Nat) :
    List (Nat × String) :=
  match lookupA t addr with
  | some existing =>
    if existing = host_name then t
    else insertA (eraseA t addr) addr host_name
  | none => insertA t addr host_name

/-- `update_host_addr(host_name, addr_list)` (NextHopDNS.h lines 15-49):
sort the new list; if the host is unknown, change nothing (early return
false); otherwise run the per-address reconciliation loop over the sorted
list and then replace the host record `addr_list` field wholesale with the
sorted list (`writeCopySwap(Fld_addr_list) = move(addr_list)`).  The
"delete discarded addr" loop in the source (lines 26-29) is an ill-formed
fragment with no effect and is embedded as a no-op; the code after the field
write (lines 51-78) is unreachable leftover text outside any valid control
flow and is not part of the function behaviour. -/
def update_host_addr (host_name : String) (addr_list : List Nat) (s : DirState) : DirState :=
  let sorted := List.insertionSort (fun a b => a ≤ b) addr_list
  match lookupA s.hosts host_name with
  | none => s
  | some _ =>
    { hosts := insertA s.hosts host_name sorted
      addrs := sorted.foldl (reconcileAddrStep host_name) s.addrs }

/-! ### xdebug header dump (src/plugins/xdebug/xdebug_headers.cc) -/

/-- A transaction as `print_request_headers` observes it: for each side, the
rendered MIME header buffer (its list of `TSIOBuffer` blocks) when
`TSHttpTxnClientReqGet` / `TSHttpTxnServerReqGet` returns `TS_SUCCESS`, and
`none` when that side is not retrievable. -/
structure Txn where
  clientReq : Option (List String)
  serverReq : Option (List String)

/-- The block drain loop of `print_headers`: append each non-empty block plus
`std::endl` to the accumulator; a zero-length block ends the loop (its
`block_avail != 0` test fails after a zero-byte consume). -/
def drainBlocks (blocks : List String) (ss : List String) : List String :=
  match blocks with
  | [] => ss
  | b :: rest => if b.length > 0 then drainBlocks rest (ss ++ [b ++ "\n"]) else ss

/-- `print_headers(txn, bufp, hdr_loc, ss)`: render the header set into a
fresh buffer and drain its blocks into the accumulator. -/
def print_headers (renderedBlocks : List String) (ss : List String) : List String :=
  drainBlocks renderedBlocks ss

/-- `print_request_headers(txn, output)` (xdebug_headers.cc lines 75-95):
write the opening marker; when the client request is retrievable, write
`<Client>`, its rendered headers and `</Client>`; when the server request is
retrievable, write `<Server>`, its rendered headers and `</Server>`; write
the closing marker.  Each side is attempted independently. -/
def print_request_headers (txn : Txn) (output : List String) : List String :=
  let o1 := output ++ ["<RequestHeaders>\n"]
  let o2 :=
    match txn.clientReq with
    | some blocks => print_headers blocks (o1 ++ ["<Client>\n"]) ++ ["</Client>\n"]
    | none => o1
  let o3 :=
    match txn.serverReq with
    | some blocks => print_headers blocks (o2 ++ ["<Server>\n"]) ++ ["</Server>\n"]
    | none => o2
  o3 ++ ["</RequestHeaders>\n"]

/-! ### Helper lemmas -/

theorem lookupA_insertA_self {K V : Type} [DecidableEq K] (l : List (K × V)) (k : K) (v : V) :
    lookupA (insertA l k v) k = some v := by
  simp [insertA, lookupA]

theorem lookupA_eraseA_ne {K V : Type} [DecidableEq K] (l : List (K × V)) (k k2 : K)
    (h : k2 ≠ k) : lookupA (eraseA l k) k2 = lookupA l k2 := by
  induction l with
  | nil => rfl
  | cons p rest ih =>
    obtain ⟨pk, pv⟩ := p
    by_cases hk : pk = k
    · subst hk
      simp only [eraseA, if_true, eq_self_iff_true]
      rw [ih, lookupA, if_neg (fun hc => h hc.symm)]
    · simp only [eraseA, if_neg hk, lookupA]
      rw [ih]

theorem lookupA_insertA_ne {K V : Type} [DecidableEq K] (l : List (K × V)) (k k2 : K) (v : V)
    (h : k2 ≠ k) : lookupA (insertA l k v) k2 = lookupA l k2 := by
  simp only [insertA, lookupA]
  rw [if_neg (fun hc => h hc.symm)]
  exact lookupA_eraseA_ne l k k2 h

theorem lookupA_eraseA_self {K V : Type} [DecidableEq K] (l : List (K × V)) (k : K) :
    lookupA (eraseA l k) k = none := by
  induction l with
  | nil => rfl
  | cons p rest ih =>
    obtain ⟨pk, pv⟩ := p
    by_cases hk : pk = k
    · simp only [eraseA, if_pos hk]
      exact ih
    · simp only [eraseA, if_neg hk, lookupA, if_neg hk]
      exact ih

theorem bitRegionRead_eq_testBit (base : Nat) (mem : Nat → Nat) (offset : Nat) :
    bitRegionRead base mem offset = Nat.testBit (mem (base + offset / 8)) (offset % 8) := by
  unfold bitRegionRead
  rw [Nat.shiftLeft_eq, one_mul, Nat.and_two_pow]
  cases h : Nat.testBit (mem (base + offset / 8)) (offset % 8) with
  | false => simp [h]
  | true => simp [h, (pow_pos (show (0 : Nat) < 2 by decide) (offset % 8)).ne']

theorem testBit_byteClear_self (c r : Nat) (hr : r < 8) :
    Nat.testBit (c &&& (255 ^^^ (1 <<< r))) r = false := by
  rw [Nat.shiftLeft_eq, one_mul, Nat.testBit_land, Nat.testBit_xor, Nat.testBit_two_pow_self]
  have h255 : Nat.testBit 255 r = true := by interval_cases r <;> decide
  rw [h255]
  simp

theorem testBit_byteClear_ne (c r j : Nat) (hne : r ≠ j) (hj : j < 8) :
    Nat.testBit (c &&& (255 ^^^ (1 <<< r))) j = Nat.testBit c j := by
  rw [Nat.shiftLeft_eq, one_mul, Nat.testBit_land, Nat.testBit_xor, Nat.testBit_two_pow_of_ne hne]
  have h255 : Nat.testBit 255 j = true := by interval_cases j <;> decide
  rw [h255]
  simp

theorem testBit_byteSet_self (c r : Nat) :
    Nat.testBit (c ||| (1 <<< r)) r = true := by
  rw [Nat.shiftLeft_eq, one_mul, Nat.testBit_lor, Nat.testBit_two_pow_self]
  simp

theorem testBit_byteSet_ne (c r j : Nat) (hne : r ≠ j) :
    Nat.testBit (c ||| (1 <<< r)) j = Nat.testBit c j := by
  rw [Nat.shiftLeft_eq, one_mul, Nat.testBit_lor, Nat.testBit_two_pow_of_ne hne]
  simp

theorem bitRegionRead_write_same (base : Nat) (mem : Nat → Nat) (offset : Nat) (val : Bool) :
    bitRegionRead base (bitRegionWrite base mem offset val) offset = val := by
  rw [bitRegionRead_eq_testBit]
  unfold bitRegionWrite
  rw [if_pos rfl]
  cases val
  · exact testBit_byteClear_self _ _ (Nat.mod_lt offset (by decide))
  · exact testBit_byteSet_self _ _

theorem bitRegionRead_write_ne (base : Nat) (mem : Nat → Nat) (b1 b2 : Nat) (val : Bool)
    (hne : b1 ≠ b2) :
    bitRegionRead base (bitRegionWrite base mem b1 val) b2 = bitRegionRead base mem b2 := by
  rw [bitRegionRead_eq_testBit, bitRegionRead_eq_testBit]
  unfold bitRegionWrite
  by_cases hbyte : b1 / 8 = b2 / 8
  · have hbit : b1 % 8 ≠ b2 % 8 := by
      intro hmod
      exact hne (by omega)
    rw [hbyte, if_pos rfl]
    cases val
    · exact testBit_byteClear_ne _ _ _ hbit (Nat.mod_lt b2 (by decide))
    · exact testBit_byteSet_ne _ _ _ hbit
  · rw [if_neg (by omega)]

theorem bitRegionRead_zeroMem (base : Nat) (offset : Nat) :
    bitRegionRead base (fun _ => 0) offset = false := by
  rw [bitRegionRead_eq_testBit]
  exact Nat.zero_testBit _

theorem drainBlocks_append (blocks : List String) (ss : List String) :
    drainBlocks blocks ss = ss ++ drainBlocks blocks [] := by
  induction blocks generalizing ss with
  | nil => simp [drainBlocks]
  | cons b rest ih =>
    by_cases hb : b.length > 0
    · rw [drainBlocks, if_pos hb, ih, drainBlocks, if_pos hb, ih ([] ++ [b ++ "\n"])]
      simp
    · rw [drainBlocks, if_neg hb, drainBlocks, if_neg hb]
      simp

theorem lookupA_applyOp_preserve {K : Type} [DecidableEq K] (m : SharedMap K) (op : MapOp K)
    (k : K) (h0 : Nat) (hk : lookupA m.entries k = some h0) (hop : op ≠ MapOp.pop k) :
    lookupA (applyOp m op).entries k = some h0 := by
  cases op with
  | foa k2 =>
    cases hfind : lookupA m.entries k2 with
    | some h2 =>
      simp only [applyOp, find_or_alloc, hfind]
      exact hk
    | none =>
      have hne : k ≠ k2 := by
        intro he
        rw [he, hfind] at hk
        exact Option.noConfusion hk
      simp only [applyOp, find_or_alloc, hfind]
      rw [lookupA_insertA_ne _ _ _ _ hne]
      exact hk
  | pop k2 =>
    have hne : k ≠ k2 := fun he => hop (by rw [he])
    simp only [applyOp, smPop]
    rw [lookupA_eraseA_ne _ _ _ hne]
    exact hk

theorem lookupA_foldl_applyOp {K : Type} [DecidableEq K] (ops : List (MapOp K)) (m : SharedMap K)
    (k : K) (h0 : Nat) (hk : lookupA m.entries k = some h0)
    (hops : ∀ k2, MapOp.pop k2 ∈ ops → k2 ≠ k) :
    lookupA (ops.foldl applyOp m).entries k = some h0 := by
  induction ops generalizing m with
  | nil => simpa using hk
  | cons op rest ih =>
    rw [List.foldl_cons]
    apply ih
    · apply lookupA_applyOp_preserve m op k h0 hk
      intro he
      exact (hops k (by simp [he])) rfl
    · intro k2 hmem
      exact hops k2 (by simp [hmem])

theorem foldl_runInitBlock_testProperty (n : Nat) (head sz : Nat) (a : Int) :
    (declareBlocks head sz n (some testProperty_init) (some testProperty_destroy)).foldl
      runInitBlock a = a + n := by
  induction n generalizing head a with
  | zero => simp [declareBlocks]
  | succ n ih =>
    simp only [declareBlocks, List.foldl_cons, runInitBlock, testProperty_init]
    rw [ih]
    push_cast
    ring

theorem foldl_runDestroyBlock_testProperty (n : Nat) (head sz : Nat) (a : Int) :
    (declareBlocks head sz n (some testProperty_init) (some testProperty_destroy)).foldl
      runDestroyBlock a = a - n := by
  induction n generalizing head a with
  | zero => simp [declareBlocks]
  | succ n ih =>
    simp only [declareBlocks, List.foldl_cons, runDestroyBlock, testProperty_destroy]
    rw [ih]
    push_cast
    ring

theorem reconcileStep_sets (host : String) (t : List (Nat × String)) (b : Nat) :
    lookupA (reconcileAddrStep host t b) b = some host := by
  unfold reconcileAddrStep
  cases hf : lookupA t b with
  | some e =>
    dsimp only
    by_cases he : e = host
    · subst he
      rw [if_pos rfl]
      exact hf
    · rw [if_neg he]
      exact lookupA_insertA_self _ _ _
  | none => exact lookupA_insertA_self _ _ _

theorem reconcileStep_preserve (host : String) (t : List (Nat × String)) (a b : Nat)
    (h : lookupA t a = some host) : lookupA (reconcileAddrStep host t b) a = some host := by
  by_cases hab : a = b
  · subst hab
    exact reconcileStep_sets host t a
  · unfold reconcileAddrStep
    cases hf : lookupA t b with
    | some e =>
      dsimp only
      by_cases he : e = host
      · subst he
        rw [if_pos rfl]
        exact h
      · rw [if_neg he]
        rw [lookupA_insertA_ne _ _ _ _ hab, lookupA_eraseA_ne _ _ _ hab]
        exact h
    | none =>
      rw [lookupA_insertA_ne _ _ _ _ hab]
      exact h

theorem foldl_reconcile_preserve (host : String) (l : List Nat) (t : List (Nat × String)) (a : Nat)
    (h : lookupA t a = some host) :
    lookupA (l.foldl (reconcileAddrStep host) t) a = some host := by
  induction l generalizing t with
  | nil => exact h
  | cons b rest ih =>
    rw [List.foldl_cons]
    exact ih _ (reconcileStep_preserve host t a b h)

theorem foldl_reconcile_mem (host : String) (l : List Nat) (t : List (Nat × String)) (a : Nat)
    (ha : a ∈ l) : lookupA (l.foldl (reconcileAddrStep host) t) a = some host := by
  induction l generalizing t with
  | nil => cases ha
  | cons b rest ih =>
    rw [List.foldl_cons]
    rcases List.mem_cons.mp ha with h1 | h2
    · subst h1
      exact foldl_reconcile_preserve host rest _ a (reconcileStep_sets host t a)
    · exact ih _ h2

/-! ### Claim theorems -/

/-- Claim C1, counterexample: the claim states that when the instance counter
is zero, reset zeroes the bit count.  For the PropertyBlock variant,
`resetSchema()` succeeds on a zero-instance state but sets `s_bits_size` to
`num_status_bits = 2` (re-reserving the two internal status bits), not to
zero. -/
theorem C1_counterexample :
    (resetSchema ⟨40, 7, 0, []⟩).1 = true ∧ (resetSchema ⟨40, 7, 0, []⟩).2.s_bits_size ≠ 0 := by
  constructor
  · rfl
  · decide

/-- Claim C1 (amended): schema reset is gated on the live-instance counter.
With a nonzero instance counter, `SharedExtendible::Schema::reset` and
`PropertyBlock::resetSchema` return false and leave every schema component
unchanged; with a zero counter they return true, clear all field definitions
and zero all region sizes, and reset the bit count to its initial value: 0
for the SharedExtendible schema, `num_status_bits = 2` for PropertyBlock
(which re-reserves its two internal status bits). -/
theorem C1_schema_reset_gating (s : SESchema) (st : PBStatic) :
    (s.instance_count ≠ 0 → s.reset = (false, s)) ∧
    (s.instance_count = 0 →
      s.reset = (true,
        { s with
          mem_size_count := []
          mem_offsets := []
          fields := []
          bit_count := 0
          alloc_size := 0 })) ∧
    (st.s_instance_count ≠ 0 → resetSchema st = (false, st)) ∧
    (st.s_instance_count = 0 →
      resetSchema st = (true,
        { st with
          s_properties_total_size := 0
          s_bits_size := num_status_bits
          schema := [] })) := by
  refine ⟨fun h => ?_, fun h => ?_, fun h => ?_, fun h => ?_⟩
  · rw [SESchema.reset, if_pos (Nat.pos_of_ne_zero h)]
  · rw [SESchema.reset, if_neg (by omega)]
  · rw [resetSchema, if_pos (Nat.pos_of_ne_zero h)]
  · rw [resetSchema, if_neg (by omega)]

/-- Claim C1 witness: the four gating cases evaluated on concrete schemas. -/
theorem C1_schema_reset_gating_witness :
    SESchema.reset ⟨[], [(4, 8)], [(4, 16)], 5, 24, 3⟩ =
        (false, ⟨[], [(4, 8)], [(4, 16)], 5, 24, 3⟩) ∧
    SESchema.reset ⟨[], [(4, 8)], [(4, 16)], 5, 24, 0⟩ = (true, ⟨[], [], [], 0, 0, 0⟩) ∧
    resetSchema ⟨40, 7, 2, []⟩ = (false, ⟨40, 7, 2, []⟩) ∧
    resetSchema ⟨40, 7, 0, []⟩ = (true, ⟨0, 2, 0, []⟩) := by
  have h1 := C1_schema_reset_gating ⟨[], [(4, 8)], [(4, 16)], 5, 24, 3⟩ ⟨40, 7, 2, []⟩
  have h2 := C1_schema_reset_gating ⟨[], [(4, 8)], [(4, 16)], 5, 24, 0⟩ ⟨40, 7, 0, []⟩
  exact ⟨h1.1 (by decide), h2.2.1 (by decide), h1.2.2.1 (by decide), h2.2.2.2 (by decide)⟩

/-- Claim C2: the first `find_or_alloc(k)` on a map not containing `k`
returns false (newly created) with a freshly allocated handle distinct from
every stored handle, and every subsequent `find_or_alloc(k)` — across any
interleaved find-or-allocates and pops of other keys, with no pop of `k` —
returns true (existed) with a handle equal to the first one. -/
theorem C2_find_or_alloc_idempotent {K : Type} [DecidableEq K] (m : SharedMap K) (k : K)
    (habs : lookupA m.entries k = none)
    (hfresh : ∀ p ∈ m.entries, p.2 < m.nextHandle) :
    (find_or_alloc m k).1 = false ∧
    (find_or_alloc m k).2.1 ∉ m.entries.map Prod.snd ∧
    (∀ ops : List (MapOp K), (∀ k2, MapOp.pop k2 ∈ ops → k2 ≠ k) →
      (find_or_alloc (ops.foldl applyOp (find_or_alloc m k).2.2) k).1 = true ∧
      (find_or_alloc (ops.foldl applyOp (find_or_alloc m k).2.2) k).2.1 =
        (find_or_alloc m k).2.1) := by
  have hfoa : find_or_alloc m k =
      (false, m.nextHandle,
        { entries := insertA m.entries k m.nextHandle, nextHandle := m.nextHandle + 1 }) := by
    simp only [find_or_alloc, habs]
  refine ⟨by rw [hfoa], ?_, ?_⟩
  · rw [hfoa]
    intro hmem
    obtain ⟨p, hp, hpe⟩ := List.mem_map.mp hmem
    exact absurd (hpe ▸ hfresh p hp) (lt_irrefl _)
  · intro ops hops
    rw [hfoa]
    dsimp only
    have hlook : lookupA (ops.foldl applyOp
        (⟨insertA m.entries k m.nextHandle, m.nextHandle + 1⟩ : SharedMap K)).entries k =
        some m.nextHandle := by
      apply lookupA_foldl_applyOp ops _ k m.nextHandle ?_ hops
      exact lookupA_insertA_self _ _ _
    constructor
    · simp only [find_or_alloc, hlook]
    · simp only [find_or_alloc, hlook]

/-- Claim C2 witness: on the empty map, allocate key 5, interleave two other
operations and a pop of key 7, and find key 5 again. -/
theorem C2_find_or_alloc_idempotent_witness :
    (find_or_alloc (⟨[], 0⟩ : SharedMap Nat) 5).1 = false ∧
    (find_or_alloc ([MapOp.foa 5, MapOp.foa 7, MapOp.pop 7].foldl applyOp
        (find_or_alloc (⟨[], 0⟩ : SharedMap Nat) 5).2.2) 5).1 = true ∧
    (find_or_alloc ([MapOp.foa 5, MapOp.foa 7, MapOp.pop 7].foldl applyOp
        (find_or_alloc (⟨[], 0⟩ : SharedMap Nat) 5).2.2) 5).2.1 =
      (find_or_alloc (⟨[], 0⟩ : SharedMap Nat) 5).2.1 := by
  have hops : ∀ k2 : Nat, MapOp.pop k2 ∈ [MapOp.foa 5, MapOp.foa 7, MapOp.pop 7] → k2 ≠ 5 := by
    intro k2 hmem
    simp only [List.mem_cons, List.not_mem_nil, or_false] at hmem
    rcases hmem with h1 | h1 | h1
    · exact MapOp.noConfusion h1
    · exact MapOp.noConfusion h1
    · injection h1 with h1
      omega
  have h := C2_find_or_alloc_idempotent (⟨[], 0⟩ : SharedMap Nat) 5 (by decide) (by decide)
  exact ⟨h.1, (h.2.2 _ hops).1, (h.2.2 _ hops).2⟩

/-- Claim C3: writing any boolean value to one bit field leaves the observed
value of every other bit field unchanged, both for
`SharedExtendible::writeBit` / `readBit` and for
`PropertyBlock::propPutBit` / `propGetBit`. -/
theorem C3_bit_independence (s : SESchema) (szDerived : Nat) (st : PBStatic) (mem : Nat → Nat)
    (b1 b2 : Nat) (v : Bool) (hne : b1 ≠ b2) :
    readBit s (writeBit s mem b1 v) b2 = readBit s mem b2 ∧
    propGetBit szDerived st (propPutBit szDerived st mem b1 v) b2 =
      propGetBit szDerived st mem b2 :=
  ⟨bitRegionRead_write_ne _ _ _ _ _ hne, bitRegionRead_write_ne _ _ _ _ _ hne⟩

/-- Claim C3 witness: bits 2 and 3 (same byte) on zeroed instance memory. -/
theorem C3_bit_independence_witness :
    (2 : Nat) ≠ 3 ∧
    (readBit ⟨[], [], [], 0, 0, 0⟩ (writeBit ⟨[], [], [], 0, 0, 0⟩ (fun _ => 0) 2 true) 3 =
        readBit ⟨[], [], [], 0, 0, 0⟩ (fun _ => 0) 3 ∧
      propGetBit 16 ⟨8, 4, 0, []⟩ (propPutBit 16 ⟨8, 4, 0, []⟩ (fun _ => 0) 2 true) 3 =
        propGetBit 16 ⟨8, 4, 0, []⟩ (fun _ => 0) 3) ∧
    readBit ⟨[], [], [], 0, 0, 0⟩ (fun _ => 0) 3 = false ∧
    readBit ⟨[], [], [], 0, 0, 0⟩ (writeBit ⟨[], [], [], 0, 0, 0⟩ (fun _ => 0) 2 true) 2 = true :=
  ⟨by decide, C3_bit_independence ⟨[], [], [], 0, 0, 0⟩ 16 ⟨8, 4, 0, []⟩ (fun _ => 0) 2 3 true
      (by decide),
    by decide, by decide⟩

/-- Claim C4 support: constructing one instance runs the schema construct
callbacks over the starting counter, and the matching destructor run applies
the destroy callbacks to the result (both guarded folds fire exactly once on
a fresh zeroed instance). -/
theorem pbConstructDestroy_alive (szDerived : Nat) (st : PBStatic) (alive : Int) :
    (pbNewDerived szDerived st alive).2.2 = st.schema.foldl runInitBlock alive ∧
    (pbDeleteDerived szDerived (pbNewDerived szDerived st alive).1
        (pbNewDerived szDerived st alive).2.1 (pbNewDerived szDerived st alive).2.2).2.2 =
      st.schema.foldl runDestroyBlock (st.schema.foldl runInitBlock alive) := by
  constructor
  · simp [pbNewDerived, propBlockInit, propGetBit, bitRegionRead_zeroMem]
  · simp [pbNewDerived, pbDeleteDerived, propBlockInit, propBlockDestroy, propGetBit, propPutBit,
      statusBitConstructed, statusBitDestroyed, bitRegionRead_zeroMem, bitRegionRead_write_same,
      bitRegionRead_write_ne]

/-- Claim C4: declaring a property type with the custom testProperty
construct/destroy callbacks and instance count N on a fresh schema, then
constructing one record instance, leaves the observable alive counter at N
(the construct callback ran N times); destroying that instance returns the
counter to 0 (the destroy callback ran N times). -/
theorem C4_lifecycle_callback_parity (szDerived szProp N : Nat) (st0 : PBStatic)
    (hsch : st0.schema = []) :
    (pbNewDerived szDerived
        (PropBlockDeclare szDerived szProp N (some testProperty_init) (some testProperty_destroy)
          st0).2 0).2.2 = (N : Int) ∧
    (pbDeleteDerived szDerived
        (pbNewDerived szDerived
          (PropBlockDeclare szDerived szProp N (some testProperty_init) (some testProperty_destroy)
            st0).2 0).1
        (pbNewDerived szDerived
          (PropBlockDeclare szDerived szProp N (some testProperty_init) (some testProperty_destroy)
            st0).2 0).2.1
        (pbNewDerived szDerived
          (PropBlockDeclare szDerived szProp N (some testProperty_init) (some testProperty_destroy)
            st0).2 0).2.2).2.2 = 0 := by
  have hschema1 : (PropBlockDeclare szDerived szProp N (some testProperty_init)
      (some testProperty_destroy) st0).2.schema =
      declareBlocks (szDerived + st0.s_properties_total_size) szProp N (some testProperty_init)
        (some testProperty_destroy) := by
    simp [PropBlockDeclare, hsch]
  obtain ⟨hA, hB⟩ := pbConstructDestroy_alive szDerived
    (PropBlockDeclare szDerived szProp N (some testProperty_init) (some testProperty_destroy)
      st0).2 0
  constructor
  · rw [hA, hschema1, foldl_runInitBlock_testProperty]
    simp
  · rw [hB, hschema1, foldl_runInitBlock_testProperty, foldl_runDestroyBlock_testProperty]
    simp

/-- Claim C4 witness: three testProperty elements, concrete sizes. -/
theorem C4_lifecycle_callback_parity_witness :
    (pbNewDerived 16
        (PropBlockDeclare 16 20 3 (some testProperty_init) (some testProperty_destroy)
          ⟨0, 2, 0, []⟩).2 0).2.2 = (3 : Int) ∧
    (pbDeleteDerived 16
        (pbNewDerived 16
          (PropBlockDeclare 16 20 3 (some testProperty_init) (some testProperty_destroy)
            ⟨0, 2, 0, []⟩).2 0).1
        (pbNewDerived 16
          (PropBlockDeclare 16 20 3 (some testProperty_init) (some testProperty_destroy)
            ⟨0, 2, 0, []⟩).2 0).2.1
        (pbNewDerived 16
          (PropBlockDeclare 16 20 3 (some testProperty_init) (some testProperty_destroy)
            ⟨0, 2, 0, []⟩).2 0).2.2).2.2 = 0 :=
  C4_lifecycle_callback_parity 16 20 3 ⟨0, 2, 0, []⟩ rfl

/-- Claim C5: PropBlockDeclare returns `sizeof(Derived)` plus the running
total of previously declared property sizes and advances the total by
`prop_count * sizeof(Property_t)`; PropBlockDeclareBit returns the next free
bit index and advances it; and the concrete declaration sequence of the test
suite (3 testProperty with custom callbacks, 5 bits, 1 string, 1 int, on a
freshly reset schema) yields offsets `sizeof(Derived)`, 2,
`sizeof(Derived) + 3*sizeof(testProperty)` and
`sizeof(Derived) + 3*sizeof(testProperty) + sizeof(string)`. -/
theorem C5_offset_layout (szDerived szProp szTP szStr szInt n bc : Nat)
    (i d : Option (Int → Int)) (st : PBStatic) :
    ((PropBlockDeclare szDerived szProp n i d st).1 = szDerived + st.s_properties_total_size ∧
      (PropBlockDeclare szDerived szProp n i d st).2.s_properties_total_size =
        st.s_properties_total_size + n * szProp) ∧
    ((PropBlockDeclareBit bc st).1 = st.s_bits_size ∧
      (PropBlockDeclareBit bc st).2.s_bits_size = st.s_bits_size + bc) ∧
    ((PropBlockDeclare szDerived szTP 3 (some testProperty_init) (some testProperty_destroy)
        ⟨0, num_status_bits, 0, []⟩).1 = szDerived ∧
      (PropBlockDeclareBit 5
        (PropBlockDeclare szDerived szTP 3 (some testProperty_init) (some testProperty_destroy)
          ⟨0, num_status_bits, 0, []⟩).2).1 = 2 ∧
      (PropBlockDeclareDefault szDerived szStr 1
        (PropBlockDeclareBit 5
          (PropBlockDeclare szDerived szTP 3 (some testProperty_init) (some testProperty_destroy)
            ⟨0, num_status_bits, 0, []⟩).2).2).1 = szDerived + 3 * szTP ∧
      (PropBlockDeclareDefault szDerived szInt 1
        (PropBlockDeclareDefault szDerived szStr 1
          (PropBlockDeclareBit 5
            (PropBlockDeclare szDerived szTP 3 (some testProperty_init) (some testProperty_destroy)
              ⟨0, num_status_bits, 0, []⟩).2).2).2).1 =
        szDerived + 3 * szTP + szStr) := by
  refine ⟨⟨?_, ?_⟩, ⟨rfl, rfl⟩, ?_, ?_, ?_, ?_⟩
  · simp only [PropBlockDeclare]
    split <;> rfl
  · simp only [PropBlockDeclare]
    split <;> rfl
  · simp [PropBlockDeclare]
  · simp [PropBlockDeclare, PropBlockDeclareBit, num_status_bits]
  · simp [PropBlockDeclare, PropBlockDeclareDefault, PropBlockDeclareBit]
  · simp [PropBlockDeclare, PropBlockDeclareDefault, PropBlockDeclareBit]
    ring

/-- Claim C6: after `update_host_addr(host, list)` completes on a host present
in the directory, every address in `list` has an AddrRecord whose host_name
field equals `host`; the host record addr_list field is replaced wholesale by
the sorted list, so every address of the prior list that is absent from
`list` is no longer contained in it. -/
theorem C6_dns_reconciliation (s : DirState) (host : String) (list prior : List Nat)
    (hprior : lookupA s.hosts host = some prior) :
    (∀ a ∈ list, lookupA (update_host_addr host list s).addrs a = some host) ∧
    lookupA (update_host_addr host list s).hosts host =
      some (List.insertionSort (fun a b => a ≤ b) list) ∧
    (∀ a, a ∈ prior → a ∉ list →
      ∀ cur, lookupA (update_host_addr host list s).hosts host = some cur → a ∉ cur) := by
  have hupd : update_host_addr host list s =
      { hosts := insertA s.hosts host (List.insertionSort (fun a b => a ≤ b) list)
        addrs := (List.insertionSort (fun a b => a ≤ b) list).foldl (reconcileAddrStep host)
          s.addrs } := by
    simp only [update_host_addr, hprior]
  refine ⟨?_, ?_, ?_⟩
  · intro a ha
    rw [hupd]
    exact foldl_reconcile_mem host _ _ a
      ((List.perm_insertionSort (fun a b => a ≤ b) list).mem_iff.mpr ha)
  · rw [hupd]
    exact lookupA_insertA_self _ _ _
  · intro a hap hanot cur hcur
    rw [hupd, lookupA_insertA_self] at hcur
    injection hcur with hcur
    subst hcur
    intro hmem
    exact hanot ((List.perm_insertionSort (fun a b => a ≤ b) list).mem_iff.mp hmem)

/-- Claim C6 witness: host `h` with prior list `[1, 2]` updated to `[3, 1]`:
address 3 now maps to `h`, the addr_list field is the sorted `[1, 3]`, and the
dropped address 2 is no longer in it. -/
theorem C6_dns_reconciliation_witness :
    lookupA (⟨[("h", [1, 2])], [(1, "h"), (2, "h")]⟩ : DirState).hosts "h" = some [1, 2] ∧
    lookupA (update_host_addr "h" [3, 1]
        ⟨[("h", [1, 2])], [(1, "h"), (2, "h")]⟩).addrs 3 = some "h" ∧
    lookupA (update_host_addr "h" [3, 1]
        ⟨[("h", [1, 2])], [(1, "h"), (2, "h")]⟩).hosts "h" =
      some (List.insertionSort (fun a b => a ≤ b) [3, 1]) ∧
    (2 : Nat) ∉ List.insertionSort (fun a b => a ≤ b) [3, 1] := by
  have h := C6_dns_reconciliation ⟨[("h", [1, 2])], [(1, "h"), (2, "h")]⟩ "h" [3, 1] [1, 2]
    (by decide)
  exact ⟨by decide, h.1 3 (by decide), h.2.1, h.2.2 2 (by decide) (by decide) _ h.2.1⟩

/-- Claim C7, counterexample: the claim states the implementation must reject
construction with count 0.  The spec-modelled checked constructor rejects it,
but the source constructor accepts it, yielding a pool of zero locks on which
getMutex has no defined result (key_hash mod 0 is a domain error). -/
theorem C7_counterexample :
    lockPoolNewChecked 0 = none ∧ (lockPoolNew 0).size = 0 ∧
    (lockPoolNew 0).getMutexByHash 7 = none :=
  ⟨rfl, rfl, rfl⟩

/-- Claim C7 (amended): the LockPool constructor performs no validation, so
count = 0 is accepted and produces a pool of zero locks on which
getMutex(key_hash) has no defined result (key_hash mod 0 is a
division-by-zero domain error); for every pool constructed with count > 0,
getMutex(key_hash) deterministically selects the lock at index
key_hash mod count. -/
theorem C7_lockpool_mod_mapping (n key_hash : Nat) (hn : 0 < n) :
    (lockPoolNew 0).getMutexByHash key_hash = none ∧
    (lockPoolNew n).getMutexByHash key_hash = some (key_hash % n) := by
  constructor
  · rfl
  · have hsize : (lockPoolNew n).size = n := by
      simp [lockPoolNew, LockPool.size]
    rw [LockPool.getMutexByHash, hsize, if_neg (by omega)]

/-- Claim C7 witness: a 64-lock pool at hash 100. -/
theorem C7_lockpool_mod_mapping_witness :
    (0 : Nat) < 64 ∧
    ((lockPoolNew 0).getMutexByHash 100 = none ∧
      (lockPoolNew 64).getMutexByHash 100 = some (100 % 64)) :=
  ⟨by decide, C7_lockpool_mod_mapping 64 100 (by decide)⟩

/-- Claim C8: `print_request_headers` always appends one block delimited by
the literal RequestHeaders markers; the client section (its tags and drained
header blocks) appears first and only when the client request is retrievable,
the server section second and only when the server request is retrievable; an
unavailable side contributes no tags at all, and the server side is rendered
regardless of the client side outcome. -/
theorem C8_request_header_dump (txn : Txn) (output : List String) :
    print_request_headers txn output =
      output ++ ["<RequestHeaders>\n"]
        ++ (match txn.clientReq with
            | some blocks => ["<Client>\n"] ++ drainBlocks blocks [] ++ ["</Client>\n"]
            | none => [])
        ++ (match txn.serverReq with
            | some blocks => ["<Server>\n"] ++ drainBlocks blocks [] ++ ["</Server>\n"]
            | none => [])
        ++ ["</RequestHeaders>\n"] := by
  obtain ⟨oc, os⟩ := txn
  cases oc with
  | none =>
    cases os with
    | none => simp [print_request_headers]
    | some sblocks =>
      simp only [print_request_headers, print_headers]
      rw [drainBlocks_append sblocks]
      simp [List.append_assoc]
  | some cblocks =>
    cases os with
    | none =>
      simp only [print_request_headers, print_headers]
      rw [drainBlocks_append cblocks]
      simp [List.append_assoc]
    | some sblocks =>
      simp only [print_request_headers, print_headers]
      rw [drainBlocks_append cblocks, drainBlocks_append sblocks]
      simp [List.append_assoc]

/-- Claim C9: `propBlockInit` and `propBlockDestroy` are idempotent per
instance (a repeated call observes the status bit already set and changes
nothing, invoking no callback), and an explicit `propBlockDestroy` followed
by the destructor runs the destroy callbacks only once (the destructor run
leaves memory and the observable counter unchanged). -/
theorem C9_lifecycle_idempotent (szDerived : Nat) (st : PBStatic) (mem : Nat → Nat)
    (alive : Int) :
    propBlockInit szDerived st (propBlockInit szDerived st mem alive).1
        (propBlockInit szDerived st mem alive).2 = propBlockInit szDerived st mem alive ∧
    propBlockDestroy szDerived st (propBlockDestroy szDerived st mem alive).1
        (propBlockDestroy szDerived st mem alive).2 = propBlockDestroy szDerived st mem alive ∧
    (pbDeleteDerived szDerived st (propBlockDestroy szDerived st mem alive).1
        (propBlockDestroy szDerived st mem alive).2).2 =
      ((propBlockDestroy szDerived st mem alive).1,
        (propBlockDestroy szDerived st mem alive).2) := by
  refine ⟨?_, ?_, ?_⟩
  · by_cases h : propGetBit szDerived st mem statusBitConstructed
    · simp [propBlockInit, h]
    · have h2 : propGetBit szDerived st
          (propPutBit szDerived st mem statusBitConstructed true) statusBitConstructed = true :=
        bitRegionRead_write_same _ _ _ _
      simp [propBlockInit, h, h2]
  · by_cases h : propGetBit szDerived st mem statusBitDestroyed
    · simp [propBlockDestroy, h]
    · have h2 : propGetBit szDerived st
          (propPutBit szDerived st mem statusBitDestroyed true) statusBitDestroyed = true :=
        bitRegionRead_write_same _ _ _ _
      simp [propBlockDestroy, h, h2]
  · by_cases h : propGetBit szDerived st mem statusBitDestroyed
    · have h1 : propGetBit szDerived
          { st with s_instance_count := st.s_instance_count - 1 } mem statusBitDestroyed =
          true := h
      simp [pbDeleteDerived, propBlockDestroy, h, h1]
    · have h1 : propGetBit szDerived { st with s_instance_count := st.s_instance_count - 1 }
          (propPutBit szDerived st mem statusBitDestroyed true) statusBitDestroyed = true :=
        bitRegionRead_write_same _ _ _ _
      simp [pbDeleteDerived, propBlockDestroy, h, h1]

/-- Claim C10: the LockPool index type is uint8_t; for every pool of at most
256 locks, getIndex(h) equals h mod size and getMutex(getIndex(h)) designates
the same mutex as getMutex(h); and the 8-bit truncation makes that agreement
fail beyond 256 locks (a 300-lock pool at hash 299). -/
theorem C10_index_truncation :
    (∀ n key_hash : Nat, 0 < n → n ≤ 256 →
      (lockPoolNew n).getIndex key_hash = some (key_hash % n) ∧
      ((lockPoolNew n).getIndex key_hash).bind (lockPoolNew n).getMutexByIndex =
        (lockPoolNew n).getMutexByHash key_hash) ∧
    (lockPoolNew 300).getIndex 299 ≠ some (299 % 300) := by
  constructor
  · intro n key_hash hn hle
    have hsize : (lockPoolNew n).size = n := by
      simp [lockPoolNew, LockPool.size]
    have hmod : key_hash % n < n := Nat.mod_lt _ hn
    have htr : (key_hash % n) % 256 = key_hash % n :=
      Nat.mod_eq_of_lt (lt_of_lt_of_le hmod hle)
    constructor
    · rw [LockPool.getIndex, hsize, if_neg (by omega), htr]
    · rw [LockPool.getIndex, LockPool.getMutexByHash, hsize, if_neg (by omega),
        if_neg (by omega), htr, Option.some_bind, LockPool.getMutexByIndex, hsize, if_pos hmod]
  · have hsize : (lockPoolNew 300).size = 300 := List.length_replicate 300 ()
    rw [LockPool.getIndex, hsize, if_neg (by omega)]
    simp only [ne_eq, Option.some.injEq]
    decide

/-- Claim C10 witness: a 64-lock pool at hash 1000. -/
theorem C10_index_truncation_witness :
    (0 : Nat) < 64 ∧ (64 : Nat) ≤ 256 ∧
    ((lockPoolNew 64).getIndex 1000 = some (1000 % 64) ∧
      ((lockPoolNew 64).getIndex 1000).bind (lockPoolNew 64).getMutexByIndex =
        (lockPoolNew 64).getMutexByHash 1000) :=
  ⟨by decide, by decide, C10_index_truncation.1 64 1000 (by decide) (by decide)⟩
